import Mathlib

/-!
Shallow embedding of the per-neighbor session core of gobgp
(`server/peer.go`), together with theorems settling the frozen claims
about it.

Conventions of the embedding:
* machine integers are `Nat`/`Int`, with an explicit `% 2^32` where the Go
  code uses `uint32` arithmetic;
* IP addresses, router ids and NLRIs are abstract `Nat` keys;
* Go maps whose values are only tested for presence (`rfMap`, `capMap`,
  the remote-family set `r`) are `Finset Nat`;
* the per-family Adj-RIBs are functions `Nat → List Path`;
* channels are modelled by the list of values enqueued on them during one
  handler run; `log.Fatal` is modelled as `Except.error ()`.
Collaborator functions from packages that are not part of the verified
source (`table`, `packet`, `policy`) are either taken as parameters or
carry a doc comment starting `Modelled from the spec:`.
-/

namespace Gobgp

/-- `FLOP_THRESHOLD = time.Second * 30`, in nanoseconds (Go `time.Duration`). -/
def FLOP_THRESHOLD : Int := 30 * 1000000000

/-- Wire/collaborator constants (values of the `packet` package). -/
def BGP_CAP_MULTIPROTOCOL : Nat := 1

def BGP_CAP_ROUTE_REFRESH : Nat := 2

def BGP_CAP_FOUR_OCTET_AS_NUMBER : Nat := 65

def BGP_ERROR_CEASE : Nat := 6

def BGP_ERROR_SUB_ADMINISTRATIVE_SHUTDOWN : Nat := 2

def BGP_ERROR_SUB_ADMINISTRATIVE_RESET : Nat := 4

/-- `uint32` modulus for the introspection counters. -/
def UINT32_MOD : Nat := 4294967296

/-- The RFC 4271 neighbor FSM states (`bgp.FSMState`). -/
inductive FSMState where
  | idle
  | connect
  | active
  | opensent
  | openconfirm
  | established
deriving DecidableEq, Repr

/-- Administrative state of the FSM driver. -/
inductive AdminState where
  | adminStateUp
  | adminStateDown
deriving DecidableEq, Repr

/-- A route as transported between actors (`table.Path`), restricted to the
fields the session core inspects: route family, nexthop, withdraw flag and
an abstract NLRI key. -/
structure Path where
  routeFamily : Nat
  nexthop : Nat
  isWithdraw : Bool
  nlri : Nat
deriving DecidableEq, Repr

/-- `table.PeerInfo`: identifies a route's origin. -/
structure PeerInfo where
  asn : Nat
  localID : Nat
  address : Nat
deriving DecidableEq, Repr

/-- Outbound BGP messages produced by the session core: UPDATEs carrying one
path, and NOTIFICATIONs carrying (code, subcode, data). -/
inductive BGPMessage where
  | update (path : Path)
  | notification (code : Nat) (subcode : Nat) (data : Nat)
deriving DecidableEq, Repr

/-- Messages on the sibling mailbox (`peerMsg`). -/
inductive PeerMsg where
  | pathMsg (paths : List Path)
  | peerDown (peerInfo : PeerInfo)
deriving DecidableEq, Repr

/-- `bgp.MessageError`: the typed error returned by the UPDATE validator. -/
structure MessageError where
  typeCode : Nat
  subTypeCode : Nat
  data : Nat
deriving DecidableEq, Repr

/-- Modelled from the spec: `bgp.AfiSafiToRouteFamily` packs the AFI/SAFI
pair into one 32-bit route-family key. -/
def afiSafiToRouteFamily (afi safi : Nat) : Nat := (afi <<< 16) ||| safi

/-- Capabilities found in an OPEN's optional parameters.  The session core
stores them keyed by code and only inspects the multiprotocol payload. -/
inductive Capability where
  | capMultiProtocol (afi : Nat) (safi : Nat)
  | capOther (code : Nat)
deriving DecidableEq, Repr

/-- `c.Code()` of a capability. -/
def Capability.code : Capability → Nat
  | .capMultiProtocol _ _ => BGP_CAP_MULTIPROTOCOL
  | .capOther c => c

/-- Optional parameters of an OPEN (`bgp.OptionParameterInterface`): either a
capability parameter or some other parameter the core ignores. -/
inductive OptionParameter where
  | capability (capabilities : List Capability)
  | other (paramType : Nat)
deriving DecidableEq, Repr

/-- The OPEN body fields the session core reads (`bgp.BGPOpen`). -/
structure BGPOpen where
  id : Nat
  holdTime : Nat
  optParams : List OptionParameter
deriving DecidableEq, Repr

/-- One step of the OPEN handler's capability scan: store the capability in
`capMap` (first component) and, for a multiprotocol capability, add its
family to the remote-advertised set `r` (second component). -/
def collectCapability (acc : Finset Nat × Finset Nat) (c : Capability) :
    Finset Nat × Finset Nat :=
  let capMap := insert c.code acc.1
  match c with
  | .capMultiProtocol afi safi => (capMap, insert (afiSafiToRouteFamily afi safi) acc.2)
  | .capOther _ => (capMap, acc.2)

/-- Scan of one optional parameter of the OPEN (`handleBGPmessage`, OPEN arm,
outer loop body). -/
def collectOptParam (acc : Finset Nat × Finset Nat) (p : OptionParameter) :
    Finset Nat × Finset Nat :=
  match p with
  | .capability caps => caps.foldl collectCapability acc
  | .other _ => acc

/-- The families advertised in the OPEN's multiprotocol capabilities
(claim-side characterization of the set `r` built by the OPEN handler). -/
def mpFamilies (params : List OptionParameter) : List Nat :=
  params.flatMap fun p =>
    match p with
    | .capability caps =>
        caps.filterMap fun c =>
          match c with
          | .capMultiProtocol afi safi => some (afiSafiToRouteFamily afi safi)
          | .capOther _ => none
    | .other _ => []

/-- Result of the OPEN arm of `handleBGPmessage`. -/
structure OpenResult where
  rfMap : Finset Nat
  capMap : Finset Nat
  negotiatedHoldTime : ℚ
  remoteID : Nat

/-- The OPEN arm of `Peer.handleBGPmessage`: record the remote router id,
store every capability in `capMap` while building the remote-advertised
family set `r`, delete from `rfMap` every family not in `r`, re-add every
configured family present in `r`, and negotiate the hold time
(`peer.fsm.negotiatedHoldTime`) as the smaller of the configured and the
advertised value.  `configured` is `peer.configuredRFlist()` (the AFI/SAFI
list of the neighbor config mapped through `bgp.GetRouteFamily`). -/
def handleOpen (configured : List Nat) (rfMap capMap : Finset Nat)
    (myHoldTime : ℚ) (body : BGPOpen) : OpenResult :=
  let rc := body.optParams.foldl collectOptParam (capMap, (∅ : Finset Nat))
  let r := rc.2
  let rfMap1 := rfMap.filter (fun rf => rf ∈ r)
  let rfMap2 := configured.foldl (fun m rf => if rf ∈ r then insert rf m else m) rfMap1
  let holdTime : ℚ := (body.holdTime : ℚ)
  let negotiated := if holdTime > myHoldTime then myHoldTime else holdTime
  { rfMap := rfMap2, capMap := rc.1, negotiatedHoldTime := negotiated, remoteID := body.id }

/-- `NewPeer`'s initialization of `rfMap` from the configured AFI/SAFI list. -/
def newPeerRfMap (configured : List Nat) : Finset Nat :=
  configured.foldl (fun m rf => insert rf m) (∅ : Finset Nat)

lemma collectCapability_foldl_snd_mem (caps : List Capability)
    (acc : Finset Nat × Finset Nat) (f : Nat) :
    f ∈ (caps.foldl collectCapability acc).2 ↔
      f ∈ acc.2 ∨ f ∈ caps.filterMap fun c =>
        match c with
        | .capMultiProtocol afi safi => some (afiSafiToRouteFamily afi safi)
        | .capOther _ => none := by
  induction caps generalizing acc with
  | nil => simp
  | cons c rest ih =>
    cases c with
    | capMultiProtocol afi safi =>
      simp [collectCapability, ih, Finset.mem_insert, List.filterMap_cons]
      tauto
    | capOther code =>
      simp [collectCapability, ih, List.filterMap_cons]

lemma mpFamilies_cons (p : OptionParameter) (rest : List OptionParameter) :
    mpFamilies (p :: rest) =
      (match p with
        | .capability caps =>
            caps.filterMap fun c =>
              match c with
              | .capMultiProtocol afi safi => some (afiSafiToRouteFamily afi safi)
              | .capOther _ => none
        | .other _ => []) ++ mpFamilies rest := by
  simp [mpFamilies]

lemma collectOptParam_foldl_snd_mem (params : List OptionParameter)
    (acc : Finset Nat × Finset Nat) (f : Nat) :
    f ∈ (params.foldl collectOptParam acc).2 ↔ f ∈ acc.2 ∨ f ∈ mpFamilies params := by
  induction params generalizing acc with
  | nil => simp [mpFamilies]
  | cons p rest ih =>
    rw [List.foldl_cons, ih, mpFamilies_cons, List.mem_append]
    cases p with
    | capability caps =>
      rw [show collectOptParam acc (.capability caps) = caps.foldl collectCapability acc from rfl]
      rw [collectCapability_foldl_snd_mem]
      tauto
    | other t =>
      rw [show collectOptParam acc (.other t) = acc from rfl]
      simp

lemma foldl_insert_of_mem_r (configured : List Nat) (r m0 : Finset Nat) (f : Nat) :
    f ∈ configured.foldl (fun m rf => if rf ∈ r then insert rf m else m) m0 ↔
      f ∈ m0 ∨ (f ∈ configured ∧ f ∈ r) := by
  induction configured generalizing m0 with
  | nil => simp
  | cons rf rest ih =>
    by_cases hrf : rf ∈ r
    · simp only [List.foldl_cons, if_pos hrf, ih, Finset.mem_insert, List.mem_cons]
      constructor
      · rintro ((h | h) | h)
        · subst h; exact Or.inr ⟨Or.inl rfl, hrf⟩
        · exact Or.inl h
        · exact Or.inr ⟨Or.inr h.1, h.2⟩
      · rintro (h | ⟨(h | h), hr⟩)
        · exact Or.inl (Or.inr h)
        · subst h; exact Or.inl (Or.inl rfl)
        · exact Or.inr ⟨h, hr⟩
    · simp only [List.foldl_cons, if_neg hrf, ih, List.mem_cons]
      constructor
      · rintro (h | h)
        · exact Or.inl h
        · exact Or.inr ⟨Or.inr h.1, h.2⟩
      · rintro (h | ⟨(h | h), hr⟩)
        · exact Or.inl h
        · subst h; exact absurd hr hrf
        · exact Or.inr ⟨h, hr⟩

lemma newPeerRfMap_mem (configured : List Nat) (f : Nat) :
    f ∈ newPeerRfMap configured ↔ f ∈ configured := by
  have key : ∀ (l : List Nat) (m0 : Finset Nat),
      f ∈ l.foldl (fun m rf => insert rf m) m0 ↔ f ∈ m0 ∨ f ∈ l := by
    intro l
    induction l with
    | nil => simp
    | cons rf rest ih =>
      intro m0
      simp [ih, Finset.mem_insert]
      tauto
  simp [newPeerRfMap, key]

/-- C1: after handling an OPEN, `rfMap` is exactly the intersection of the
configured family list and the families advertised in the OPEN's
multiprotocol capabilities, provided the pre-state `rfMap` only held
configured families (true at `NewPeer` and preserved by this very
theorem). -/
theorem rfMap_intersection_after_open (configured : List Nat)
    (rfMap capMap : Finset Nat) (myHoldTime : ℚ) (body : BGPOpen) (f : Nat)
    (h : ∀ g ∈ rfMap, g ∈ configured) :
    f ∈ (handleOpen configured rfMap capMap myHoldTime body).rfMap ↔
      (f ∈ configured ∧ f ∈ mpFamilies body.optParams) := by
  show f ∈ configured.foldl
      (fun m rf =>
        if rf ∈ (body.optParams.foldl collectOptParam (capMap, (∅ : Finset Nat))).2
        then insert rf m else m)
      (rfMap.filter
        (fun rf => rf ∈ (body.optParams.foldl collectOptParam (capMap, (∅ : Finset Nat))).2)) ↔ _
  rw [foldl_insert_of_mem_r, Finset.mem_filter, collectOptParam_foldl_snd_mem]
  simp only [Finset.not_mem_empty, false_or]
  constructor
  · rintro (⟨hf, hr⟩ | ⟨hc, hr⟩)
    · exact ⟨h f hf, hr⟩
    · exact ⟨hc, hr⟩
  · rintro ⟨hc, hr⟩
    exact Or.inr ⟨hc, hr⟩

theorem rfMap_intersection_after_open_witness :
    (65537 ∈ (handleOpen [65537, 131073] {65537, 131073} ∅ 90
        { id := 7, holdTime := 30,
          optParams := [OptionParameter.capability [Capability.capMultiProtocol 1 1]] }).rfMap ↔
      (65537 ∈ [65537, 131073] ∧
        65537 ∈ mpFamilies [OptionParameter.capability [Capability.capMultiProtocol 1 1]])) :=
  rfMap_intersection_after_open [65537, 131073] {65537, 131073} ∅ 90
    { id := 7, holdTime := 30,
      optParams := [OptionParameter.capability [Capability.capMultiProtocol 1 1]] }
    65537 (by decide)

/-- C6: the negotiated hold time handed to the FSM driver is the minimum of
the locally configured hold time and the one advertised in the OPEN. -/
theorem negotiated_holdtime_min (configured : List Nat)
    (rfMap capMap : Finset Nat) (myHoldTime : ℚ) (body : BGPOpen) :
    (handleOpen configured rfMap capMap myHoldTime body).negotiatedHoldTime =
      min myHoldTime (body.holdTime : ℚ) := by
  simp only [handleOpen]
  rcases le_or_lt (body.holdTime : ℚ) myHoldTime with hle | hlt
  · rw [if_neg (not_lt.mpr hle), min_eq_right hle]
  · rw [if_pos hlt, min_eq_left hlt.le]

/-- `policy.RouteType`: the action a matched policy yields. -/
inductive RouteType where
  | routeTypeNone
  | routeTypeAccept
  | routeTypeReject
deriving DecidableEq, Repr

/-- A policy is abstract to the session core except for its `Apply` method,
which returns (matched, action, new path). -/
structure Policy where
  apply : Path → Bool × RouteType × Path

/-- `config.DefaultPolicyType`: the default import/export verdict. -/
inductive DefaultPolicyType where
  | acceptRoute
  | rejectRoute
deriving DecidableEq, Repr

/-- `applyPolicies` from `peer.go`: apply each policy in order until one
matches; a REJECT action returns (applied, nil), any other action returns
(applied, new path); if none matches, return (not applied, original). -/
def applyPolicies : List Policy → Path → Bool × Option Path
  | [], original => (false, some original)
  | pol :: rest, original =>
    let r := pol.apply original
    if r.1 then
      if r.2.1 = RouteType.routeTypeReject then (true, none)
      else (true, some r.2.2)
    else applyPolicies rest original

/-- C2: `applyPolicies` returns the outcome of the first matching policy —
(true, none) on REJECT, (true, its new path) otherwise — and (false, the
original path) when no policy in the chain matches. -/
theorem applyPolicies_first_match (pols : List Policy) (p : Path) :
    applyPolicies pols p =
      match pols.find? (fun pol => (pol.apply p).1) with
      | none => (false, some p)
      | some pol =>
          if (pol.apply p).2.1 = RouteType.routeTypeReject then (true, none)
          else (true, some (pol.apply p).2.2) := by
  induction pols with
  | nil => rfl
  | cons pol rest ih =>
    by_cases hm : (pol.apply p).1 = true
    · simp only [applyPolicies, if_pos hm, List.find?, hm, if_true]
    · have hm2 : (pol.apply p).1 = false := by
        cases hval : (pol.apply p).1
        · rfl
        · exact absurd hval hm
      simp only [applyPolicies, hm2, List.find?, Bool.false_eq_true, if_false]
      exact ih

/-- Modelled from the spec: `table.UpdatePathAttrs2ByteAs` rewrites AS-path
attributes to 2-octet form.  AS-path attributes are not part of the path
model, so the rewrite leaves every modelled field (family, nexthop, NLRI,
withdraw flag) unchanged. -/
def updatePathAttrs2ByteAs (p : Path) : Path := p

/-- Modelled from the spec: `table.CreateUpdateMsgFromPaths` converts a path
list into the UPDATE messages carrying exactly those paths. -/
def createUpdateMsgFromPaths (paths : List Path) : List BGPMessage :=
  paths.map BGPMessage.update

/-- `Peer.sendMessages`: for each message, silently skip it unless the FSM
state is ESTABLISHED; assert (`log.Fatal`, modelled as `Except.error`) that
it is an UPDATE; rewrite AS attributes to 2-octet form when the remote did
not advertise the 4-octet-AS capability; enqueue it on `outgoing`.  The
result is the list of messages enqueued on `outgoing`. -/
def sendMessages (state : FSMState) (capMap : Finset Nat) :
    List BGPMessage → Except Unit (List BGPMessage)
  | [] => .ok []
  | m :: rest =>
    if state = FSMState.established then
      match m with
      | .update p =>
        let m2 := if BGP_CAP_FOUR_OCTET_AS_NUMBER ∈ capMap then BGPMessage.update p
                  else BGPMessage.update (updatePathAttrs2ByteAs p)
        match sendMessages state capMap rest with
        | .ok tail => .ok (m2 :: tail)
        | .error e => .error e
      | .notification _ _ _ => .error ()
    else
      sendMessages state capMap rest

/-- `Peer.sendPathsToSiblings`: nothing is sent for an empty path list;
otherwise each sibling in the directory receives one PATH message carrying
the whole list.  The result is the list of (sibling address, message)
sends. -/
def sendPathsToSiblings (siblings : List String) (pathList : List Path) :
    List (String × PeerMsg) :=
  if pathList = [] then []
  else siblings.map (fun s => (s, PeerMsg.pathMsg pathList))

/-- The ROUTE_REFRESH arm of `Peer.handleBGPmessage`: ignore the request if
the family is not negotiated or the remote did not advertise the
route-refresh capability; otherwise re-emit the Adj-RIB-Out for that family
through `sendMessages`. -/
def handleRouteRefresh (afi safi : Nat) (rfMap capMap : Finset Nat)
    (state : FSMState) (adjRibOut : Nat → List Path) :
    Except Unit (List BGPMessage) :=
  let rf := afiSafiToRouteFamily afi safi
  if rf ∈ rfMap then
    if BGP_CAP_ROUTE_REFRESH ∈ capMap then
      sendMessages state capMap (createUpdateMsgFromPaths (adjRibOut rf))
    else .ok []
  else .ok []

/-- Request kinds of the management API handled by `Peer.handleREST`. -/
inductive RestRequestType where
  | reqLocalRib
  | reqGlobalRib
  | reqNeighborShutdown
  | reqNeighborReset
  | reqNeighborSoftReset
  | reqNeighborSoftResetIn
  | reqNeighborSoftResetOut
  | reqAdjRibIn
  | reqAdjRibOut
  | reqNeighborEnable
  | reqNeighborDisable
deriving DecidableEq, Repr

/-- The channel effects of one `Peer.handleREST` call. -/
structure RestEffects where
  outgoing : Except Unit (List BGPMessage)
  siblingSends : List (String × PeerMsg)

/-- `Peer.handleREST`, restricted to its channel effects (the JSON response
written to the reply channel is not modelled): NEIGHBOR_SHUTDOWN and
NEIGHBOR_RESET enqueue a CEASE notification directly on `outgoing` with no
FSM-state check; the soft resets fan the Adj-RIB-In out to siblings and/or
re-emit the Adj-RIB-Out through `sendMessages`. -/
def handleREST (req : RestRequestType) (rf : Nat) (state : FSMState)
    (capMap : Finset Nat) (adjRibIn adjRibOut : Nat → List Path)
    (siblings : List String) : RestEffects :=
  match req with
  | .reqNeighborShutdown =>
    { outgoing := .ok [BGPMessage.notification BGP_ERROR_CEASE
        BGP_ERROR_SUB_ADMINISTRATIVE_SHUTDOWN 0]
      siblingSends := [] }
  | .reqNeighborReset =>
    { outgoing := .ok [BGPMessage.notification BGP_ERROR_CEASE
        BGP_ERROR_SUB_ADMINISTRATIVE_RESET 0]
      siblingSends := [] }
  | .reqNeighborSoftReset =>
    { outgoing := sendMessages state capMap (createUpdateMsgFromPaths (adjRibOut rf))
      siblingSends := sendPathsToSiblings siblings (adjRibIn rf) }
  | .reqNeighborSoftResetIn =>
    { outgoing := .ok []
      siblingSends := sendPathsToSiblings siblings (adjRibIn rf) }
  | .reqNeighborSoftResetOut =>
    { outgoing := sendMessages state capMap (createUpdateMsgFromPaths (adjRibOut rf))
      siblingSends := [] }
  | _ => { outgoing := .ok [], siblingSends := [] }

/-- C4 (counterexample): a NEIGHBOR_SHUTDOWN management request received
while the FSM is in IDLE still enqueues a CEASE/ADMIN-SHUTDOWN notification
on `outgoing`, so it is not true that every message presented for sending
outside ESTABLISHED is dropped rather than queued. -/
theorem outgoing_notification_in_idle :
    (handleREST RestRequestType.reqNeighborShutdown 0 FSMState.idle ∅
        (fun _ => []) (fun _ => []) []).outgoing =
      Except.ok [BGPMessage.notification BGP_ERROR_CEASE
        BGP_ERROR_SUB_ADMINISTRATIVE_SHUTDOWN 0] ∧
      FSMState.idle ≠ FSMState.established := by
  exact ⟨rfl, by decide⟩

/-- C4 (amended): every message that goes through the `sendMessages` egress
funnel — i.e. every UPDATE the session core produces — is silently dropped,
not queued on `outgoing`, while the FSM state is not ESTABLISHED. -/
theorem sendMessages_drops_outside_established (state : FSMState)
    (capMap : Finset Nat) (msgs : List BGPMessage)
    (h : state ≠ FSMState.established) :
    sendMessages state capMap msgs = .ok [] := by
  induction msgs with
  | nil => rfl
  | cons m rest ih =>
    simp only [sendMessages, if_neg h]
    exact ih

theorem sendMessages_drops_outside_established_witness :
    sendMessages FSMState.idle ∅
        [BGPMessage.update { routeFamily := 65537, nexthop := 2, isWithdraw := false, nlri := 3 }] =
      .ok [] :=
  sendMessages_drops_outside_established FSMState.idle ∅
    [BGPMessage.update { routeFamily := 65537, nexthop := 2, isWithdraw := false, nlri := 3 }]
    (by decide)

/-- Modelled from the spec: `table.AdjRib.UpdateOut` applies a path list to
the Adj-RIB-Out: a withdrawal removes the matching NLRI entry of its
family, a non-withdrawal replaces or adds the entry. -/
def adjRibUpdateOut (rib : Nat → List Path) (paths : List Path) : Nat → List Path :=
  paths.foldl
    (fun rib p => fun rf =>
      if rf = p.routeFamily then
        if p.isWithdraw then (rib rf).filter (fun q => q.nlri != p.nlri)
        else (rib rf).filter (fun q => q.nlri != p.nlri) ++ [p]
      else rib rf)
    rib

/-- The per-path policy loop of `Peer.sendUpdateMsgFromPaths`: withdrawals
are always kept; with a non-empty export chain the first matching policy
decides (REJECT drops the path, otherwise its new path is kept) and the
default export verdict decides unmatched paths; with an empty chain every
path is kept unchanged. -/
def exportPolicyFilter (policies : List Policy)
    (defaultExportPolicy : DefaultPolicyType) : List Path → List Path
  | [] => []
  | p :: rest =>
    let tail := exportPolicyFilter policies defaultExportPolicy rest
    if p.isWithdraw then p :: tail
    else if policies.isEmpty then p :: tail
    else
      let ap := applyPolicies policies p
      if ap.1 then
        match ap.2 with
        | some newPath => newPath :: tail
        | none => tail
      else if defaultExportPolicy = DefaultPolicyType.acceptRoute then p :: tail
      else tail

/-- The per-path policy loop of the PATH arm of `Peer.handlePeerMsg`:
identical to the export loop but driven by the import chain and the
default import verdict. -/
def importPolicyFilter (policies : List Policy)
    (defaultImportPolicy : DefaultPolicyType) : List Path → List Path
  | [] => []
  | p :: rest =>
    let tail := importPolicyFilter policies defaultImportPolicy rest
    if !p.isWithdraw then
      if policies.isEmpty then p :: tail
      else
        let ap := applyPolicies policies p
        if ap.1 then
          match ap.2 with
          | some newPath => newPath :: tail
          | none => tail
        else if defaultImportPolicy = DefaultPolicyType.acceptRoute then p :: tail
        else tail
    else p :: tail

/-- Result of `Peer.sendUpdateMsgFromPaths`: the updated Adj-RIB-Out and the
messages enqueued on `outgoing` (through `sendMessages`). -/
structure ExportResult where
  adjRibOut : Nat → List Path
  outgoing : Except Unit (List BGPMessage)

/-- `Peer.sendUpdateMsgFromPaths`: clone/rewrite attributes
(`table.CloneAndUpdatePathAttrs`, an external collaborator taken here as
the parameter `cloneAndUpdatePathAttrs`), run the export policy loop,
record the surviving paths in the Adj-RIB-Out, then drop — at egress
only — every path whose family is not negotiated or whose nexthop equals
the neighbor address, and hand the rest to `sendMessages`. -/
def sendUpdateMsgFromPaths (cloneAndUpdatePathAttrs : List Path → List Path)
    (exportPolicies : List Policy) (defaultExportPolicy : DefaultPolicyType)
    (neighborAddress : Nat) (rfMap capMap : Finset Nat) (state : FSMState)
    (adjRibOut : Nat → List Path) (pList : List Path) : ExportResult :=
  let pList2 := cloneAndUpdatePathAttrs pList
  let paths := exportPolicyFilter exportPolicies defaultExportPolicy pList2
  let adjRibOut2 := adjRibUpdateOut adjRibOut paths
  let sendpathList := paths.filter fun p =>
    let ok : Bool := decide (p.routeFamily ∈ rfMap)
    let ok := if neighborAddress = p.nexthop then false else ok
    ok
  { adjRibOut := adjRibOut2
    outgoing := sendMessages state capMap (createUpdateMsgFromPaths sendpathList) }

lemma sendMessages_mem_of_ok (state : FSMState) (capMap : Finset Nat)
    (msgs out : List BGPMessage) (h : sendMessages state capMap msgs = .ok out) :
    ∀ m ∈ out, m ∈ msgs := by
  induction msgs generalizing out with
  | nil =>
    simp only [sendMessages] at h
    cases h
    simp
  | cons m rest ih =>
    by_cases hst : state = FSMState.established
    · subst hst
      cases m with
      | update p =>
        simp only [sendMessages, if_pos rfl] at h
        cases hrec : sendMessages FSMState.established capMap rest with
        | ok tail =>
          rw [hrec] at h
          cases h
          intro x hx
          rcases List.mem_cons.mp hx with hx | hx
          · subst hx
            by_cases hcap : BGP_CAP_FOUR_OCTET_AS_NUMBER ∈ capMap
            · simp [hcap]
            · simp [hcap, updatePathAttrs2ByteAs]
          · exact List.mem_cons_of_mem _ (ih tail hrec x hx)
        | error e =>
          rw [hrec] at h
          cases h
      | notification c s d =>
        simp only [sendMessages, if_pos rfl] at h
        cases h
    · simp only [sendMessages, if_neg hst] at h
      intro x hx
      exact List.mem_cons_of_mem _ (ih out h x hx)

/-- C3 (amended): on the export path (`sendUpdateMsgFromPaths`) no emitted
path carries a nexthop equal to the neighbor address: the egress filter
drops every such path before `sendMessages`. -/
theorem export_split_horizon (cloneAndUpdatePathAttrs : List Path → List Path)
    (exportPolicies : List Policy) (defaultExportPolicy : DefaultPolicyType)
    (neighborAddress : Nat) (rfMap capMap : Finset Nat) (state : FSMState)
    (adjRibOut : Nat → List Path) (pList : List Path)
    (out : List BGPMessage) (p : Path)
    (h : (sendUpdateMsgFromPaths cloneAndUpdatePathAttrs exportPolicies
        defaultExportPolicy neighborAddress rfMap capMap state adjRibOut
        pList).outgoing = .ok out)
    (hm : BGPMessage.update p ∈ out) : p.nexthop ≠ neighborAddress := by
  have hmem := sendMessages_mem_of_ok state capMap _ out h _ hm
  simp only [createUpdateMsgFromPaths, List.mem_map] at hmem
  obtain ⟨q, hq, hqp⟩ := hmem
  cases hqp
  rw [List.mem_filter] at hq
  intro heq
  rw [if_pos heq.symm] at hq
  exact Bool.false_ne_true hq.2

theorem export_split_horizon_witness :
    ({ routeFamily := 65537, nexthop := 5, isWithdraw := false, nlri := 3 } : Path).nexthop ≠ 9 :=
  export_split_horizon (fun l => l) [] DefaultPolicyType.acceptRoute 9
    {65537} {65} FSMState.established (fun _ => [])
    [{ routeFamily := 65537, nexthop := 5, isWithdraw := false, nlri := 3 }]
    [BGPMessage.update { routeFamily := 65537, nexthop := 5, isWithdraw := false, nlri := 3 }]
    { routeFamily := 65537, nexthop := 5, isWithdraw := false, nlri := 3 }
    (by rfl) (by simp)

/-- C3 (counterexample): for a peer whose neighbor address is 100, with an
Adj-RIB-Out holding a path whose nexthop is that very address (the claim
itself grants the Adj-RIB-Out may record such a path), a ROUTE-REFRESH
re-emits it: the handler has no nexthop filter, so the emitted UPDATE
carries nexthop 100 = the neighbor address. -/
theorem route_refresh_emits_own_nexthop :
    handleRouteRefresh 1 1 {afiSafiToRouteFamily 1 1} {BGP_CAP_ROUTE_REFRESH}
        FSMState.established
        (fun rf => if rf = afiSafiToRouteFamily 1 1 then
          [{ routeFamily := afiSafiToRouteFamily 1 1, nexthop := 100,
             isWithdraw := false, nlri := 7 }] else []) =
      .ok [BGPMessage.update
        { routeFamily := afiSafiToRouteFamily 1 1, nexthop := 100,
          isWithdraw := false, nlri := 7 }] ∧
      ({ routeFamily := afiSafiToRouteFamily 1 1, nexthop := 100,
         isWithdraw := false, nlri := 7 } : Path).nexthop = 100 := by
  exact ⟨by rfl, rfl⟩

/-- C9: with an empty policy chain both the export and the import loops pass
every path through unchanged, whatever the default verdict is; and whenever
some policy in a non-empty chain matched a path, the result does not depend
on the default verdict (which is consulted only in the present-but-unmatched
case). -/
theorem empty_policy_chain_passthrough (d d2 : DefaultPolicyType)
    (ps : List Path) (pols : List Policy) (p : Path)
    (hm : (applyPolicies pols p).1 = true) :
    exportPolicyFilter [] d ps = ps ∧ importPolicyFilter [] d ps = ps ∧
    exportPolicyFilter pols d [p] = exportPolicyFilter pols d2 [p] ∧
    importPolicyFilter pols d [p] = importPolicyFilter pols d2 [p] := by
  refine ⟨?_, ?_, ?_, ?_⟩
  · induction ps with
    | nil => rfl
    | cons q rest ih =>
      simp only [exportPolicyFilter, List.isEmpty_nil, ih]
      by_cases hw : q.isWithdraw
      · simp [hw]
      · simp [hw]
  · induction ps with
    | nil => rfl
    | cons q rest ih =>
      simp only [importPolicyFilter, List.isEmpty_nil, ih]
      by_cases hw : q.isWithdraw
      · simp [hw]
      · simp [hw]
  · have hne : pols.isEmpty = false := by
      cases pols with
      | nil => simp [applyPolicies] at hm
      | cons a l => rfl
    simp only [exportPolicyFilter, hne, hm]
    by_cases hw : p.isWithdraw
    · simp [hw]
    · simp [hw]
  · have hne : pols.isEmpty = false := by
      cases pols with
      | nil => simp [applyPolicies] at hm
      | cons a l => rfl
    simp only [importPolicyFilter, hne, hm]
    by_cases hw : p.isWithdraw
    · simp [hw]
    · simp [hw]

theorem empty_policy_chain_passthrough_witness :
    exportPolicyFilter [] DefaultPolicyType.rejectRoute
        [{ routeFamily := 65537, nexthop := 5, isWithdraw := false, nlri := 3 }] =
      [{ routeFamily := 65537, nexthop := 5, isWithdraw := false, nlri := 3 }] :=
  (empty_policy_chain_passthrough DefaultPolicyType.rejectRoute
    DefaultPolicyType.acceptRoute
    [{ routeFamily := 65537, nexthop := 5, isWithdraw := false, nlri := 3 }]
    [{ apply := fun p => (true, RouteType.routeTypeAccept, p) }]
    { routeFamily := 65537, nexthop := 5, isWithdraw := false, nlri := 3 }
    (by rfl)).1

/-- Modelled from the spec: `table.AdjRib.UpdateIn` applies a path list to
the Adj-RIB-In: a withdrawal removes the matching NLRI entry of its family,
a non-withdrawal replaces or adds the entry. -/
def adjRibUpdateIn (rib : Nat → List Path) (paths : List Path) : Nat → List Path :=
  paths.foldl
    (fun rib p => fun rf =>
      if rf = p.routeFamily then
        if p.isWithdraw then (rib rf).filter (fun q => q.nlri != p.nlri)
        else (rib rf).filter (fun q => q.nlri != p.nlri) ++ [p]
      else rib rf)
    rib

/-- The channel and RIB effects of the UPDATE arm of `handleBGPmessage`. -/
structure UpdateEffects where
  adjRibIn : Nat → List Path
  outgoing : List BGPMessage
  siblingSends : List (String × PeerMsg)

/-- The UPDATE arm of `Peer.handleBGPmessage`.  `validation` is the result
of the external validator `bgp.ValidateUpdateMsg(body, rfMap)` (`some e` on
a validation error) and `pathList` the decoded paths of the message
(`table.ProcessMessage.ToPathList`, tagged with this peer's PeerInfo).  On
a validation error the UPDATE is dropped: a NOTIFICATION carrying the
error's code and subcode is enqueued on `outgoing` when the code is
non-zero, and neither the Adj-RIB-In nor the siblings see the message.  On
success the paths are applied to the Adj-RIB-In and fanned out to every
sibling. -/
def handleUpdate (validation : Option MessageError) (pathList : List Path)
    (adjRibIn : Nat → List Path) (siblings : List String) : UpdateEffects :=
  match validation with
  | some e =>
    { adjRibIn := adjRibIn
      outgoing :=
        if e.typeCode ≠ 0 then
          [BGPMessage.notification e.typeCode e.subTypeCode e.data]
        else []
      siblingSends := [] }
  | none =>
    { adjRibIn := adjRibUpdateIn adjRibIn pathList
      outgoing := []
      siblingSends := sendPathsToSiblings siblings pathList }

/-- C7: a validator-rejected UPDATE yields exactly one NOTIFICATION with the
error's code and subcode when the code is non-zero and none when it is
zero, leaves the Adj-RIB-In unchanged, and fans nothing out to siblings. -/
theorem rejected_update_effects (e : MessageError) (pathList : List Path)
    (adjRibIn : Nat → List Path) (siblings : List String) :
    (handleUpdate (some e) pathList adjRibIn siblings).outgoing =
        (if e.typeCode ≠ 0 then
          [BGPMessage.notification e.typeCode e.subTypeCode e.data]
         else []) ∧
      (handleUpdate (some e) pathList adjRibIn siblings).adjRibIn = adjRibIn ∧
      (handleUpdate (some e) pathList adjRibIn siblings).siblingSends = [] :=
  ⟨rfl, rfl, rfl⟩

/-- Result of the FSM_MSG_STATE_CHANGE arm of `Peer.loop`'s inner loop. -/
structure StateChangeResult where
  state : FSMState
  flops : Nat
  adjRibIn : Nat → List Path
  siblingSends : List (String × PeerMsg)

/-- Modelled from the spec: `table.AdjRib.DropAllIn` empties the Adj-RIB-In
of the family. -/
def dropAllIn (rib : Nat → List Path) (rf : Nat) : Nat → List Path :=
  fun x => if x = rf then [] else rib x

/-- The FSM_MSG_STATE_CHANGE arm of `Peer.loop`: record the new state; when
the old state was ESTABLISHED, bump the Flops counter if less than
FLOP_THRESHOLD elapsed since the recorded uptime, drop the Adj-RIB-In of
every configured family and send one PEER-DOWN with this peer's PeerInfo to
every sibling; finally, when the administrative state is DOWN, clear the
common-state counters (Flops among them).  `uptime` is the recorded
ESTABLISHED entry time in Unix seconds and `now` the current time in
nanoseconds, mirroring `t.Sub(time.Unix(uptime, 0))`. -/
def handleStateChange (nextState oldState : FSMState) (adminState : AdminState)
    (flops : Nat) (uptime : Int) (now : Int) (configured : List Nat)
    (adjRibIn : Nat → List Path) (siblings : List String)
    (peerInfo : PeerInfo) : StateChangeResult :=
  let r0 : StateChangeResult :=
    { state := nextState, flops := flops, adjRibIn := adjRibIn, siblingSends := [] }
  let r1 :=
    if oldState = FSMState.established then
      let flops2 := if now - uptime * 1000000000 < FLOP_THRESHOLD then flops + 1 else flops
      let rib2 := configured.foldl (fun rib rf => dropAllIn rib rf) adjRibIn
      { r0 with
        flops := flops2
        adjRibIn := rib2
        siblingSends := siblings.map (fun s => (s, PeerMsg.peerDown peerInfo)) }
    else r0
  if adminState = AdminState.adminStateDown then { r1 with flops := 0 } else r1

lemma dropAllIn_foldl (configured : List Nat) (adjRibIn : Nat → List Path)
    (rf : Nat) (h : rf ∈ configured) :
    configured.foldl (fun rib x => dropAllIn rib x) adjRibIn rf = [] := by
  induction configured generalizing adjRibIn with
  | nil => cases h
  | cons c rest ih =>
    rcases List.mem_cons.mp h with hc | hc
    · subst hc
      by_cases hr : rf ∈ rest
      · exact ih _ hr
      · clear ih h
        rw [List.foldl_cons]
        have keep : ∀ (l : List Nat) (rib : Nat → List Path),
            rib rf = [] → l.foldl (fun rib x => dropAllIn rib x) rib rf = [] := by
          intro l
          induction l with
          | nil => intro rib hrib; exact hrib
          | cons y ys ihy =>
            intro rib hrib
            rw [List.foldl_cons]
            apply ihy
            simp only [dropAllIn]
            by_cases hy : rf = y
            · rw [if_pos hy]
            · rw [if_neg hy]; exact hrib
        apply keep
        simp [dropAllIn]
    · exact ih _ hc

/-- C5: on a transition out of ESTABLISHED to a different state, the
Adj-RIB-In is emptied for every configured family, the sibling fan-out is
exactly one PEER-DOWN per directory entry carrying this peer's PeerInfo,
and each sibling address receives exactly one message. -/
theorem established_exit_drops_rib_and_notifies (nextState oldState : FSMState)
    (adminState : AdminState) (flops : Nat) (uptime now : Int)
    (configured : List Nat) (adjRibIn : Nat → List Path)
    (siblings : List String) (peerInfo : PeerInfo) (rf : Nat) (s : String)
    (h1 : oldState = FSMState.established) (h2 : nextState ≠ FSMState.established)
    (hrf : rf ∈ configured) (hs : s ∈ siblings) (hnd : siblings.Nodup) :
    (handleStateChange nextState oldState adminState flops uptime now configured
        adjRibIn siblings peerInfo).adjRibIn rf = [] ∧
    (handleStateChange nextState oldState adminState flops uptime now configured
        adjRibIn siblings peerInfo).siblingSends =
      siblings.map (fun t => (t, PeerMsg.peerDown peerInfo)) ∧
    ((handleStateChange nextState oldState adminState flops uptime now configured
        adjRibIn siblings peerInfo).siblingSends.filter
      (fun x => x.1 == s)).length = 1 := by
  subst h1
  have hproj :
      (handleStateChange nextState FSMState.established adminState flops uptime now
          configured adjRibIn siblings peerInfo).adjRibIn =
        configured.foldl (fun rib x => dropAllIn rib x) adjRibIn ∧
      (handleStateChange nextState FSMState.established adminState flops uptime now
          configured adjRibIn siblings peerInfo).siblingSends =
        siblings.map (fun t => (t, PeerMsg.peerDown peerInfo)) := by
    simp only [handleStateChange, if_pos rfl]
    by_cases ha : adminState = AdminState.adminStateDown
    · rw [if_pos ha]; exact ⟨rfl, rfl⟩
    · rw [if_neg ha]; exact ⟨rfl, rfl⟩
  refine ⟨?_, hproj.2, ?_⟩
  · rw [hproj.1]
    exact dropAllIn_foldl configured adjRibIn rf hrf
  · rw [hproj.2]
    have count_one : ∀ (l : List String), l.Nodup → s ∈ l →
        ((l.map (fun t => (t, PeerMsg.peerDown peerInfo))).filter
          (fun x => x.1 == s)).length = 1 := by
      intro l
      induction l with
      | nil => intro _ hmem; cases hmem
      | cons a rest ihl =>
        intro hndl hmem
        rw [List.map_cons, List.filter_cons]
        rcases List.mem_cons.mp hmem with hc | hc
        · subst hc
          have hna : s ∉ rest := (List.nodup_cons.mp hndl).1
          have hzero : ((rest.map (fun t => (t, PeerMsg.peerDown peerInfo))).filter
              (fun x => x.1 == s)).length = 0 := by
            rw [List.length_eq_zero, List.filter_eq_nil_iff]
            intro x hx
            rcases List.mem_map.mp hx with ⟨t, ht, rfl⟩
            intro hts
            exact hna (eq_of_beq hts ▸ ht)
          simp [hzero]
        · have hnds : rest.Nodup := (List.nodup_cons.mp hndl).2
          have hne : (a == s) = false := by
            simp only [beq_eq_false_iff_ne, ne_eq]
            intro has
            subst has
            exact (List.nodup_cons.mp hndl).1 hc
          simp only [hne, Bool.false_eq_true, if_false]
          exact ihl hnds hc
    exact count_one siblings hnd hs

theorem established_exit_drops_rib_and_notifies_witness :
    (handleStateChange FSMState.idle FSMState.established AdminState.adminStateUp
        2 1000 (1005 * 1000000000) [65537] (fun _ => [Path.mk 65537 5 false 3]) ["10.0.0.2"]
        { asn := 64512, localID := 1, address := 9 }).adjRibIn 65537 = [] ∧
    (handleStateChange FSMState.idle FSMState.established AdminState.adminStateUp
        2 1000 (1005 * 1000000000) [65537] (fun _ => [Path.mk 65537 5 false 3]) ["10.0.0.2"]
        { asn := 64512, localID := 1, address := 9 }).siblingSends =
      ["10.0.0.2"].map (fun t => (t, PeerMsg.peerDown
        { asn := 64512, localID := 1, address := 9 })) ∧
    ((handleStateChange FSMState.idle FSMState.established AdminState.adminStateUp
        2 1000 (1005 * 1000000000) [65537] (fun _ => [Path.mk 65537 5 false 3]) ["10.0.0.2"]
        { asn := 64512, localID := 1, address := 9 }).siblingSends.filter
      (fun x => x.1 == "10.0.0.2")).length = 1 :=
  established_exit_drops_rib_and_notifies FSMState.idle FSMState.established
    AdminState.adminStateUp 2 1000 (1005 * 1000000000) [65537]
    (fun _ => [Path.mk 65537 5 false 3])
    ["10.0.0.2"] { asn := 64512, localID := 1, address := 9 } 65537 "10.0.0.2"
    rfl (by decide) (by decide) (by decide) (by decide)

/-- C8: while the administrative state is not DOWN (which clears all
counters wholesale), the Flops counter is incremented by the state-change
handler exactly when the old state was ESTABLISHED and less than
FLOP_THRESHOLD (30 s) elapsed since the recorded uptime; on every other
transition it is unchanged. -/
theorem flops_increment_iff (nextState oldState : FSMState)
    (adminState : AdminState) (flops : Nat) (uptime now : Int)
    (configured : List Nat) (adjRibIn : Nat → List Path)
    (siblings : List String) (peerInfo : PeerInfo)
    (h : adminState ≠ AdminState.adminStateDown) :
    (handleStateChange nextState oldState adminState flops uptime now configured
        adjRibIn siblings peerInfo).flops =
      if oldState = FSMState.established ∧ now - uptime * 1000000000 < FLOP_THRESHOLD
      then flops + 1 else flops := by
  simp only [handleStateChange, if_neg h]
  by_cases hold : oldState = FSMState.established
  · by_cases ht : now - uptime * 1000000000 < FLOP_THRESHOLD
    · rw [if_pos hold, if_pos ht, if_pos ⟨hold, ht⟩]
    · rw [if_pos hold, if_neg ht, if_neg (by tauto)]
  · rw [if_neg hold, if_neg (by tauto)]

theorem flops_increment_iff_witness :
    (handleStateChange FSMState.idle FSMState.established AdminState.adminStateUp
        2 1000 (1005 * 1000000000) [] (fun _ => []) []
        { asn := 64512, localID := 1, address := 9 }).flops =
      (if FSMState.established = FSMState.established ∧
          (1005 * 1000000000 : Int) - 1000 * 1000000000 < FLOP_THRESHOLD
       then 2 + 1 else 2) :=
  flops_increment_iff FSMState.idle FSMState.established AdminState.adminStateUp
    2 1000 (1005 * 1000000000) [] (fun _ => []) []
    { asn := 64512, localID := 1, address := 9 } (by decide)

/-- The Received/Accepted/Advertized path counters of the introspection
snapshot (`uint32` each). -/
structure PathCounts where
  advertized : Nat
  received : Nat
  accepted : Nat
deriving DecidableEq, Repr

/-- The path-count computation of `Peer.MarshalJSON`: the three counters
start at zero and are summed (in `uint32` arithmetic) over the configured
families only when the FSM state is ESTABLISHED; `getInCount`/`getOutCount`
are the external per-family Adj-RIB counts (`table.AdjRib.GetInCount` /
`GetOutCount`).  Accepted accumulates the same in-count as Received. -/
def marshalPathCounts (state : FSMState) (configured : List Nat)
    (getInCount getOutCount : Nat → Nat) : PathCounts :=
  let z : PathCounts := { advertized := 0, received := 0, accepted := 0 }
  if state = FSMState.established then
    configured.foldl
      (fun s rf =>
        { advertized := (s.advertized + getOutCount rf % UINT32_MOD) % UINT32_MOD
          received := (s.received + getInCount rf % UINT32_MOD) % UINT32_MOD
          accepted := (s.accepted + getInCount rf % UINT32_MOD) % UINT32_MOD })
      z
  else z

lemma marshalPathCounts_foldl_mod (count : Nat → Nat) (l : List Nat) (a : Nat)
    (ha : a < UINT32_MOD) :
    l.foldl (fun s rf => (s + count rf % UINT32_MOD) % UINT32_MOD) a =
      (a + (l.map (fun rf => count rf % UINT32_MOD)).sum) % UINT32_MOD := by
  induction l generalizing a with
  | nil => simp [Nat.mod_eq_of_lt ha]
  | cons rf rest ih =>
    rw [List.foldl_cons, ih _ (Nat.mod_lt _ (by norm_num [UINT32_MOD]))]
    rw [List.map_cons, List.sum_cons, Nat.mod_add_mod, Nat.add_assoc]

lemma marshalPathCounts_fold_received (configured : List Nat)
    (getInCount getOutCount : Nat → Nat) (s0 : PathCounts) :
    (configured.foldl
      (fun s rf =>
        ({ advertized := (s.advertized + getOutCount rf % UINT32_MOD) % UINT32_MOD
           received := (s.received + getInCount rf % UINT32_MOD) % UINT32_MOD
           accepted := (s.accepted + getInCount rf % UINT32_MOD) % UINT32_MOD } : PathCounts))
      s0).received =
    configured.foldl (fun s rf => (s + getInCount rf % UINT32_MOD) % UINT32_MOD)
      s0.received := by
  induction configured generalizing s0 with
  | nil => rfl
  | cons rf rest ih => rw [List.foldl_cons, List.foldl_cons, ih]

lemma marshalPathCounts_fold_advertized (configured : List Nat)
    (getInCount getOutCount : Nat → Nat) (s0 : PathCounts) :
    (configured.foldl
      (fun s rf =>
        ({ advertized := (s.advertized + getOutCount rf % UINT32_MOD) % UINT32_MOD
           received := (s.received + getInCount rf % UINT32_MOD) % UINT32_MOD
           accepted := (s.accepted + getInCount rf % UINT32_MOD) % UINT32_MOD } : PathCounts))
      s0).advertized =
    configured.foldl (fun s rf => (s + getOutCount rf % UINT32_MOD) % UINT32_MOD)
      s0.advertized := by
  induction configured generalizing s0 with
  | nil => rfl
  | cons rf rest ih => rw [List.foldl_cons, List.foldl_cons, ih]

lemma marshalPathCounts_fold_accepted_eq_received (configured : List Nat)
    (getInCount getOutCount : Nat → Nat) (s0 : PathCounts)
    (h : s0.accepted = s0.received) :
    (configured.foldl
      (fun s rf =>
        ({ advertized := (s.advertized + getOutCount rf % UINT32_MOD) % UINT32_MOD
           received := (s.received + getInCount rf % UINT32_MOD) % UINT32_MOD
           accepted := (s.accepted + getInCount rf % UINT32_MOD) % UINT32_MOD } : PathCounts))
      s0).accepted =
    (configured.foldl
      (fun s rf =>
        ({ advertized := (s.advertized + getOutCount rf % UINT32_MOD) % UINT32_MOD
           received := (s.received + getInCount rf % UINT32_MOD) % UINT32_MOD
           accepted := (s.accepted + getInCount rf % UINT32_MOD) % UINT32_MOD } : PathCounts))
      s0).received := by
  induction configured generalizing s0 with
  | nil => exact h
  | cons rf rest ih =>
    rw [List.foldl_cons]
    exact ih _ (by simp [h])

/-- C10: when the FSM is not ESTABLISHED the snapshot reports zero
Received/Accepted/Advertized paths whatever the Adj-RIBs hold; when
ESTABLISHED, Received and Advertized are the (uint32) sums of the
per-family Adj-RIB in/out counts over the configured families, and
Accepted always equals Received. -/
theorem snapshot_path_counts (state : FSMState) (configured : List Nat)
    (getInCount getOutCount : Nat → Nat) (h : state = FSMState.established) :
    (∀ st : FSMState, st ≠ FSMState.established →
      marshalPathCounts st configured getInCount getOutCount =
        { advertized := 0, received := 0, accepted := 0 }) ∧
    (marshalPathCounts state configured getInCount getOutCount).received =
      (configured.map (fun rf => getInCount rf % UINT32_MOD)).sum % UINT32_MOD ∧
    (marshalPathCounts state configured getInCount getOutCount).advertized =
      (configured.map (fun rf => getOutCount rf % UINT32_MOD)).sum % UINT32_MOD ∧
    (marshalPathCounts state configured getInCount getOutCount).accepted =
      (marshalPathCounts state configured getInCount getOutCount).received := by
  subst h
  refine ⟨?_, ?_, ?_, ?_⟩
  · intro st hst
    simp only [marshalPathCounts, if_neg hst]
  · rw [show marshalPathCounts FSMState.established configured getInCount getOutCount =
        configured.foldl
          (fun s rf =>
            ({ advertized := (s.advertized + getOutCount rf % UINT32_MOD) % UINT32_MOD
               received := (s.received + getInCount rf % UINT32_MOD) % UINT32_MOD
               accepted := (s.accepted + getInCount rf % UINT32_MOD) % UINT32_MOD } : PathCounts))
          { advertized := 0, received := 0, accepted := 0 } from rfl]
    rw [marshalPathCounts_fold_received]
    rw [marshalPathCounts_foldl_mod (fun rf => getInCount rf) configured 0
      (by norm_num [UINT32_MOD])]
    simp
  · rw [show marshalPathCounts FSMState.established configured getInCount getOutCount =
        configured.foldl
          (fun s rf =>
            ({ advertized := (s.advertized + getOutCount rf % UINT32_MOD) % UINT32_MOD
               received := (s.received + getInCount rf % UINT32_MOD) % UINT32_MOD
               accepted := (s.accepted + getInCount rf % UINT32_MOD) % UINT32_MOD } : PathCounts))
          { advertized := 0, received := 0, accepted := 0 } from rfl]
    rw [marshalPathCounts_fold_advertized]
    rw [marshalPathCounts_foldl_mod (fun rf => getOutCount rf) configured 0
      (by norm_num [UINT32_MOD])]
    simp
  · rw [show marshalPathCounts FSMState.established configured getInCount getOutCount =
        configured.foldl
          (fun s rf =>
            ({ advertized := (s.advertized + getOutCount rf % UINT32_MOD) % UINT32_MOD
               received := (s.received + getInCount rf % UINT32_MOD) % UINT32_MOD
               accepted := (s.accepted + getInCount rf % UINT32_MOD) % UINT32_MOD } : PathCounts))
          { advertized := 0, received := 0, accepted := 0 } from rfl]
    exact marshalPathCounts_fold_accepted_eq_received configured getInCount getOutCount _ rfl

theorem snapshot_path_counts_witness :
    (∀ st : FSMState, st ≠ FSMState.established →
      marshalPathCounts st [65537, 131073] (fun rf => rf % 10) (fun rf => rf % 7) =
        { advertized := 0, received := 0, accepted := 0 }) ∧
    (marshalPathCounts FSMState.established [65537, 131073]
        (fun rf => rf % 10) (fun rf => rf % 7)).received =
      ([65537, 131073].map (fun rf => rf % 10 % UINT32_MOD)).sum % UINT32_MOD ∧
    (marshalPathCounts FSMState.established [65537, 131073]
        (fun rf => rf % 10) (fun rf => rf % 7)).advertized =
      ([65537, 131073].map (fun rf => rf % 7 % UINT32_MOD)).sum % UINT32_MOD ∧
    (marshalPathCounts FSMState.established [65537, 131073]
        (fun rf => rf % 10) (fun rf => rf % 7)).accepted =
      (marshalPathCounts FSMState.established [65537, 131073]
        (fun rf => rf % 10) (fun rf => rf % 7)).received :=
  snapshot_path_counts FSMState.established [65537, 131073]
    (fun rf => rf % 10) (fun rf => rf % 7) rfl

end Gobgp
